import Mathlib

/-!
Verification of the `QullamaggieLawsOfSwing` trading strategy
(`main.py`): a single allocation decision function `run` over a window of
OHLCV bars.  Real-valued prices are embedded as rationals; the Python
division-by-zero fault of `x / sma` when an SMA is zero is modelled by
`run` returning `none`.  Diagnostic log lines are modelled by the
`LogMsg` type, carrying the numeric payloads the source interpolates.
-/

namespace QullamaggieLawsOfSwing

/-- One OHLCV bar: the per-bar record with keys
`open`, `high`, `low`, `close`, `volume` (`open` is a Lean keyword, hence
`openP`). -/
structure Bar where
  openP : ℚ
  high : ℚ
  low : ℚ
  close : ℚ
  volume : ℚ
deriving DecidableEq, Repr

/-- Core of the simple moving average: mean of the trailing `n` entries of a
numeric series. -/
def smaCore (n : ℕ) (xs : List ℚ) : ℚ :=
  ((xs.reverse.take n).sum) / n

/-- Modelled from the spec: the indicator library
`surmount.technical_indicators` is not part of the repository; per the
glossary, `SMA(n)` is the simple moving average of closing price over the
trailing `n` bars.  The source reads only the final element `sma[-1]` of the
indicator series, which this definition returns. -/
def smaLast (n : ℕ) (bars : List Bar) : ℚ :=
  smaCore n (bars.map Bar.close)

/-- True-range series given the previous close: for each bar,
`max (high - low) (max |high - prevClose| |low - prevClose|)`. -/
def trueRangesCore : ℚ → List (ℚ × ℚ × ℚ) → List ℚ
  | _, [] => []
  | prev, (h, l, c) :: rest =>
      max (h - l) (max |h - prev| |l - prev|) :: trueRangesCore c rest

/-- Core of the average true range over trailing `n` periods: the first bar
contributes `high - low`, later bars their true range, and the trailing `n`
values are averaged. -/
def atrCore (n : ℕ) (hlc : List (ℚ × ℚ × ℚ)) : ℚ :=
  match hlc with
  | [] => 0
  | (h, l, c) :: rest =>
      smaCore n ((h - l) :: trueRangesCore c rest)

/-- Modelled from the spec: the indicator library
`surmount.technical_indicators` is not part of the repository; per the
glossary, `ATR(n)` is the average true range over the trailing `n` bars, a
volatility measure.  The source reads only the final value `atr14[-1]`,
which this definition returns. -/
def atrLast (n : ℕ) (bars : List Bar) : ℚ :=
  atrCore n (bars.map fun b => (b.high, b.low, b.close))

/-- The diagnostic messages `run` emits, with their numeric payloads. -/
inductive LogMsg where
  | indicators (sma10 sma20 sma50 : ℚ)
  | atr (atr14 : ℚ)
  | avoidEntry
  | nearSMA10
  | nearSMA20
  | nearSMA50
  | notNear
  | exitSignal
  | stopLoss (price : ℚ)
deriving DecidableEq, Repr

/-- `entry_signal` after the breakout step: `current_close > orh`, where the
opening-range reference `orh` is `current_open`. -/
def signalAfterBreakout (current_open current_close : ℚ) : Bool :=
  current_close > current_open

/-- `entry_signal` after the volatility filter: forced to `false` when
`(current_close - current_open) > atr14`. -/
def signalAfterVolatility (atr14 current_open current_close : ℚ) : Bool :=
  if current_close - current_open > atr14 then false
  else signalAfterBreakout current_open current_close

/-- The proximity test `abs (current_close - sma) / sma < 0.01`, defined
only when `sma` is non-zero (the caller guards the division). -/
def near (current_close sma : ℚ) : Bool :=
  |current_close - sma| / sma < 1 / 100

/-- `entry_signal` after the moving-average proximity chain: when the signal
is still on, it survives iff one of `near_sma10`, `near_sma20`,
`near_sma50` holds, checked in that order. -/
def signalAfterProximity (sma10 sma20 sma50 atr14 current_open current_close : ℚ) : Bool :=
  if signalAfterVolatility atr14 current_open current_close then
    if near current_close sma10 then true
    else if near current_close sma20 then true
    else if near current_close sma50 then true
    else false
  else signalAfterVolatility atr14 current_open current_close

/-- `allocation = 0.2 if entry_signal else 0.0`. -/
def allocationSized (sma10 sma20 sma50 atr14 current_open current_close : ℚ) : ℚ :=
  if signalAfterProximity sma10 sma20 sma50 atr14 current_open current_close then 1 / 5
  else 0

/-- The allocation after the stop-loss override: forced to `0.0` when
`current_close < sma10`. -/
def allocationFinal (sma10 sma20 sma50 atr14 current_open current_close : ℚ) : ℚ :=
  if current_close < sma10 then 0
  else allocationSized sma10 sma20 sma50 atr14 current_open current_close

/-- The support-tier log line produced inside the `if entry_signal:` block:
the first near MA in priority order 10, 20, 50, or the not-near message. -/
def supportLogs (sma10 sma20 sma50 atr14 current_open current_close : ℚ) : List LogMsg :=
  if signalAfterVolatility atr14 current_open current_close then
    if near current_close sma10 then [LogMsg.nearSMA10]
    else if near current_close sma20 then [LogMsg.nearSMA20]
    else if near current_close sma50 then [LogMsg.nearSMA50]
    else [LogMsg.notNear]
  else []

/-- The full diagnostic log sequence of one evaluation, in source order. -/
def logsOf (sma10 sma20 sma50 atr14 current_open current_low current_close : ℚ) : List LogMsg :=
  [LogMsg.indicators sma10 sma20 sma50, LogMsg.atr atr14]
    ++ (if current_close - current_open > atr14 then [LogMsg.avoidEntry] else [])
    ++ supportLogs sma10 sma20 sma50 atr14 current_open current_close
    ++ (if current_close < sma10 then [LogMsg.exitSignal] else [])
    ++ [LogMsg.stopLoss current_low]

/-- Body of `run` past the data guard, over the latest bar's fields and the
trailing indicator values.  The three proximity divisions of lines 91-93
execute unconditionally; a zero divisor is the Python `ZeroDivisionError`,
modelled as `none`. -/
def runBody (sma10 sma20 sma50 atr14 current_open current_low current_close : ℚ) :
    Option (List (String × ℚ) × List LogMsg) :=
  if sma10 = 0 then none
  else if sma20 = 0 then none
  else if sma50 = 0 then none
  else
    some ([("AAPL", allocationFinal sma10 sma20 sma50 atr14 current_open current_close)],
      logsOf sma10 sma20 sma50 atr14 current_open current_low current_close)

/-- The Allocation Decision Function `run`.  The input models
`data.get("ohlcv")`: `none` when the key is absent, otherwise the bar list.
`not ohlcv or len(ohlcv) < 50` returns the empty allocation mapping.  The
result pairs the returned allocation mapping with the emitted log
sequence; `none` is an uncaught runtime fault. -/
def run (data : Option (List Bar)) : Option (List (String × ℚ) × List LogMsg) :=
  match data with
  | none => some ([], [])
  | some ohlcv =>
      if ohlcv = [] ∨ ohlcv.length < 50 then some ([], [])
      else
        match ohlcv.getLast? with
        | none => none
        | some latest =>
            runBody (smaLast 10 ohlcv) (smaLast 20 ohlcv) (smaLast 50 ohlcv)
              (atrLast 14 ohlcv) latest.openP latest.low latest.close

/-- The allocation mapping component of `run`. -/
def runAlloc (data : Option (List Bar)) : Option (List (String × ℚ)) :=
  (run data).map Prod.fst

/-- The projection of a bar to its open, high, low and close fields,
dropping the volume. -/
def Bar.ohlc (b : Bar) : ℚ × ℚ × ℚ × ℚ :=
  (b.openP, b.high, b.low, b.close)

/-- A quiet up bar: close one above the open, well inside the day range. -/
def flatBar : Bar := ⟨99, 101, 98, 100, 5⟩

/-- A bar whose close is zero, driving every trailing SMA of a constant
series to zero. -/
def zeroCloseBar : Bar := ⟨1, 1, 0, 0, 5⟩

/-- A bar closing well below the running level 100, for exit-override
series. -/
def exitBar : Bar := ⟨91, 95, 89, 90, 5⟩

/-- A bar whose close-minus-open leap of 10 exceeds the trailing ATR of the
constant series it ends. -/
def volBar : Bar := ⟨90, 101, 89, 100, 5⟩

/-- A bar closing far above every trailing SMA of the constant series it
ends. -/
def farBar : Bar := ⟨140, 160, 139, 150, 5⟩

section Theorems

/-- A series of at least 50 bars passes the insufficient-data guard. -/
lemma guard_false {bars : List Bar} (hlen : 50 ≤ bars.length) :
    ¬(bars = [] ∨ bars.length < 50) := by
  push_neg
  refine ⟨?_, by omega⟩
  intro hnil
  rw [hnil] at hlen
  simp at hlen

/-- C1 counterexample: on a 49-bar series the guard returns the empty
mapping `{}`, not the single-entry mapping `{"AAPL": 0.0}`. -/
theorem run_short_series_cex :
    runAlloc (some (List.replicate 49 flatBar)) = some [] ∧
      (some [] : Option (List (String × ℚ))) ≠ some [("AAPL", 0)] := by
  constructor
  · rfl
  · decide

/-- C1 (amended): for every series with fewer than 50 bars, `run` returns
the empty allocation mapping, with no log output and no fault. -/
theorem run_short_series_empty_alloc (bars : List Bar) (h : bars.length < 50) :
    run (some bars) = some ([], []) := by
  simp only [run]
  rw [if_pos (Or.inr h)]

theorem run_short_series_empty_alloc_witness :
    run (some (List.replicate 3 flatBar)) = some ([], []) :=
  run_short_series_empty_alloc (List.replicate 3 flatBar) (by simp)

/-- C2: on a well-formed series of at least 50 bars whose last bar breaks
out (`close > open`), is not vetoed (`close - open ≤ ATR14`), closes within
1% of SMA10 and at or above SMA10, the allocation is `{"AAPL": 0.2}`. -/
theorem run_entry_allocates_twenty_percent (bars : List Bar) (latest : Bar)
    (hlen : 50 ≤ bars.length)
    (hlast : bars.getLast? = some latest)
    (h10 : smaLast 10 bars ≠ 0) (h20 : smaLast 20 bars ≠ 0) (h50 : smaLast 50 bars ≠ 0)
    (hbreak : latest.openP < latest.close)
    (hvol : latest.close - latest.openP ≤ atrLast 14 bars)
    (hnear : |latest.close - smaLast 10 bars| / smaLast 10 bars < 1 / 100)
    (hexit : smaLast 10 bars ≤ latest.close) :
    runAlloc (some bars) = some [("AAPL", 1 / 5)] := by
  have hne := guard_false hlen
  simp only [runAlloc, run]
  rw [if_neg hne, hlast]
  simp only [runBody]
  rw [if_neg h10, if_neg h20, if_neg h50]
  simp only [allocationFinal, allocationSized, signalAfterProximity, signalAfterVolatility,
    signalAfterBreakout, near, Option.map_some]
  rw [if_neg (not_lt.mpr hexit)]
  have hnear' : |latest.close - smaLast 10 bars| / smaLast 10 bars < (100 : ℚ)⁻¹ := by
    rwa [one_div] at hnear
  simp [not_lt.mpr hvol, hbreak, hnear']

theorem run_entry_allocates_twenty_percent_witness :
    runAlloc (some (List.replicate 50 flatBar)) = some [("AAPL", 1 / 5)] :=
  run_entry_allocates_twenty_percent (List.replicate 50 flatBar) flatBar
    (by simp)
    (by simp [List.getLast?])
    (by simp [smaLast, smaCore, flatBar, List.replicate]; norm_num)
    (by simp [smaLast, smaCore, flatBar, List.replicate]; norm_num)
    (by simp [smaLast, smaCore, flatBar, List.replicate]; norm_num)
    (by norm_num [flatBar])
    (by simp [atrLast, atrCore, trueRangesCore, smaCore, flatBar, List.replicate]; norm_num)
    (by simp [smaLast, smaCore, flatBar, List.replicate]; norm_num)
    (by simp [smaLast, smaCore, flatBar, List.replicate]; norm_num)

/-- C3: on a well-formed series of at least 50 bars whose last close is
below SMA10, the stop-loss override forces the allocation to `0.0`,
whatever the entry conditions decided. -/
theorem run_exit_override_zero (bars : List Bar) (latest : Bar)
    (hlen : 50 ≤ bars.length)
    (hlast : bars.getLast? = some latest)
    (h10 : smaLast 10 bars ≠ 0) (h20 : smaLast 20 bars ≠ 0) (h50 : smaLast 50 bars ≠ 0)
    (hexit : latest.close < smaLast 10 bars) :
    runAlloc (some bars) = some [("AAPL", 0)] := by
  have hne := guard_false hlen
  simp only [runAlloc, run]
  rw [if_neg hne, hlast]
  simp only [runBody]
  rw [if_neg h10, if_neg h20, if_neg h50]
  simp only [allocationFinal]
  rw [if_pos hexit]
  rfl

theorem run_exit_override_zero_witness :
    runAlloc (some (List.replicate 49 flatBar ++ [exitBar])) = some [("AAPL", 0)] :=
  run_exit_override_zero (List.replicate 49 flatBar ++ [exitBar]) exitBar
    (by simp)
    (by simp)
    (by simp [smaLast, smaCore, flatBar, exitBar, List.replicate]; norm_num)
    (by simp [smaLast, smaCore, flatBar, exitBar, List.replicate]; norm_num)
    (by simp [smaLast, smaCore, flatBar, exitBar, List.replicate]; norm_num)
    (by simp [smaLast, smaCore, flatBar, exitBar, List.replicate]; norm_num)

/-- C4: on a well-formed series of at least 50 bars whose last bar moved
more than the trailing ATR (`close - open > ATR14`), the volatility veto
forces the allocation to `0.0`, whatever the breakout and proximity
checks say. -/
theorem run_volatility_veto_zero (bars : List Bar) (latest : Bar)
    (hlen : 50 ≤ bars.length)
    (hlast : bars.getLast? = some latest)
    (h10 : smaLast 10 bars ≠ 0) (h20 : smaLast 20 bars ≠ 0) (h50 : smaLast 50 bars ≠ 0)
    (hvol : atrLast 14 bars < latest.close - latest.openP) :
    runAlloc (some bars) = some [("AAPL", 0)] := by
  have hne := guard_false hlen
  simp only [runAlloc, run]
  rw [if_neg hne, hlast]
  simp only [runBody]
  rw [if_neg h10, if_neg h20, if_neg h50]
  simp [allocationFinal, allocationSized, signalAfterProximity, signalAfterVolatility, hvol]

theorem run_volatility_veto_zero_witness :
    runAlloc (some (List.replicate 49 flatBar ++ [volBar])) = some [("AAPL", 0)] :=
  run_volatility_veto_zero (List.replicate 49 flatBar ++ [volBar]) volBar
    (by simp)
    (by simp)
    (by simp [smaLast, smaCore, flatBar, volBar, List.replicate]; norm_num)
    (by simp [smaLast, smaCore, flatBar, volBar, List.replicate]; norm_num)
    (by simp [smaLast, smaCore, flatBar, volBar, List.replicate]; norm_num)
    (by simp [atrLast, atrCore, trueRangesCore, smaCore, flatBar, volBar, List.replicate]
        norm_num)

/-- C5: on a well-formed series of at least 50 bars whose last close is not
within 1% relative distance of any of SMA10, SMA20, SMA50, the proximity
filter forces the allocation to `0.0`. -/
theorem run_no_ma_support_zero (bars : List Bar) (latest : Bar)
    (hlen : 50 ≤ bars.length)
    (hlast : bars.getLast? = some latest)
    (h10 : smaLast 10 bars ≠ 0) (h20 : smaLast 20 bars ≠ 0) (h50 : smaLast 50 bars ≠ 0)
    (hn10 : ¬(|latest.close - smaLast 10 bars| / smaLast 10 bars < 1 / 100))
    (hn20 : ¬(|latest.close - smaLast 20 bars| / smaLast 20 bars < 1 / 100))
    (hn50 : ¬(|latest.close - smaLast 50 bars| / smaLast 50 bars < 1 / 100)) :
    runAlloc (some bars) = some [("AAPL", 0)] := by
  have hne := guard_false hlen
  have hn10' : ¬(|latest.close - smaLast 10 bars| / smaLast 10 bars < (100 : ℚ)⁻¹) := by
    rwa [one_div] at hn10
  have hn20' : ¬(|latest.close - smaLast 20 bars| / smaLast 20 bars < (100 : ℚ)⁻¹) := by
    rwa [one_div] at hn20
  have hn50' : ¬(|latest.close - smaLast 50 bars| / smaLast 50 bars < (100 : ℚ)⁻¹) := by
    rwa [one_div] at hn50
  have hsp : signalAfterProximity (smaLast 10 bars) (smaLast 20 bars) (smaLast 50 bars)
      (atrLast 14 bars) latest.openP latest.close = false := by
    unfold signalAfterProximity
    cases hsv : signalAfterVolatility (atrLast 14 bars) latest.openP latest.close
    · simp
    · simp [near, hn10', hn20', hn50']
  simp only [runAlloc, run]
  rw [if_neg hne, hlast]
  simp only [runBody]
  rw [if_neg h10, if_neg h20, if_neg h50]
  simp [allocationFinal, allocationSized, hsp]

theorem run_no_ma_support_zero_witness :
    runAlloc (some (List.replicate 49 flatBar ++ [farBar])) = some [("AAPL", 0)] :=
  run_no_ma_support_zero (List.replicate 49 flatBar ++ [farBar]) farBar
    (by simp)
    (by simp)
    (by simp [smaLast, smaCore, flatBar, farBar, List.replicate]; norm_num)
    (by simp [smaLast, smaCore, flatBar, farBar, List.replicate]; norm_num)
    (by simp [smaLast, smaCore, flatBar, farBar, List.replicate]; norm_num)
    (by simp [smaLast, smaCore, flatBar, farBar, List.replicate]; norm_num [abs_of_nonneg])
    (by simp [smaLast, smaCore, flatBar, farBar, List.replicate]; norm_num [abs_of_nonneg])
    (by simp [smaLast, smaCore, flatBar, farBar, List.replicate]; norm_num [abs_of_nonneg])

/-- C6: `run` is deterministic and stateless: evaluations on identical
input series return identical allocation mappings together with identical
diagnostic log sequences, however often the call is repeated. -/
theorem run_deterministic (d₁ d₂ : Option (List Bar)) (h : d₁ = d₂) :
    run d₁ = run d₂ :=
  congrArg run h

theorem run_deterministic_witness :
    run (some (List.replicate 50 flatBar)) = run (some (List.replicate 50 flatBar)) :=
  run_deterministic (some (List.replicate 50 flatBar)) (some (List.replicate 50 flatBar)) rfl

/-- C7 counterexample: on the 50-bar series of zero closes the entry
signal is already false after the breakout and volatility steps, yet `run`
performs the proximity division by the zero SMA10 and propagates the fault
(`none`) instead of returning an allocation. -/
theorem run_proximity_unconditional_cex :
    signalAfterVolatility (atrLast 14 (List.replicate 50 zeroCloseBar))
        zeroCloseBar.openP zeroCloseBar.close = false ∧
      smaLast 10 (List.replicate 50 zeroCloseBar) = 0 ∧
      run (some (List.replicate 50 zeroCloseBar)) = none := by
  refine ⟨?_, ?_, ?_⟩
  · simp [signalAfterVolatility, signalAfterBreakout, atrLast, atrCore, trueRangesCore,
      smaCore, zeroCloseBar, List.replicate]
  · simp [smaLast, smaCore, zeroCloseBar, List.replicate]
  · simp [run, runBody, smaLast, smaCore, zeroCloseBar, List.replicate]

/-- C7 (amended): the proximity divisions are executed unconditionally,
signal or no signal: on every series of at least 50 bars in which any of
the trailing SMA10, SMA20, SMA50 values is zero, `run` propagates the
division fault. -/
theorem run_zero_sma_faults (bars : List Bar)
    (hlen : 50 ≤ bars.length)
    (hz : smaLast 10 bars = 0 ∨ smaLast 20 bars = 0 ∨ smaLast 50 bars = 0) :
    run (some bars) = none := by
  simp only [run]
  rw [if_neg (guard_false hlen)]
  cases hl : bars.getLast? with
  | none => rfl
  | some latest =>
      simp only [runBody]
      split_ifs <;> first | rfl | tauto

theorem run_zero_sma_faults_witness :
    run (some (List.replicate 50 zeroCloseBar)) = none :=
  run_zero_sma_faults (List.replicate 50 zeroCloseBar)
    (by simp)
    (Or.inl (by simp [smaLast, smaCore, zeroCloseBar, List.replicate]))

/-- C8: the division fault of the proximity filter is reachable: there is a
series of at least 50 bars with zero trailing SMA10 on which `run` does not
return an allocation but propagates the uncaught fault. -/
theorem run_zero_sma_fault_reachable :
    ∃ bars : List Bar, 50 ≤ bars.length ∧ smaLast 10 bars = 0 ∧
      run (some bars) = none := by
  refine ⟨List.replicate 50 ⟨2, 3, 1, 0, 5⟩, by simp, ?_, ?_⟩
  · simp [smaLast, smaCore, List.replicate]
  · simp [run, runBody, smaLast, smaCore, List.replicate]

/-- C9: a record without the `"ohlcv"` key, and one whose value is the
empty (falsy) series, both take the graceful guard path: `run` returns the
empty allocation mapping and raises nothing. -/
theorem run_missing_or_empty_ohlcv :
    run none = some ([], []) ∧ run (some []) = some ([], []) := by
  constructor <;> rfl

/-- C10: the allocation does not depend on volume: two series of at least
50 bars agreeing on the open, high, low and close of every bar give the
same `run` result, however their volumes differ. -/
theorem run_volume_independent (bars₁ bars₂ : List Bar)
    (hlen : 50 ≤ bars₁.length)
    (h : bars₁.map Bar.ohlc = bars₂.map Bar.ohlc) :
    run (some bars₁) = run (some bars₂) := by
  have hlen2 : bars₁.length = bars₂.length := by
    have h' := congrArg List.length h
    simpa using h'
  have hclose : bars₁.map Bar.close = bars₂.map Bar.close := by
    have h' := congrArg (List.map fun p : ℚ × ℚ × ℚ × ℚ => p.2.2.2) h
    simpa [List.map_map, Function.comp, Bar.ohlc] using h'
  have hhlc : (bars₁.map fun b => (b.high, b.low, b.close))
      = bars₂.map fun b => (b.high, b.low, b.close) := by
    have h' := congrArg (List.map fun p : ℚ × ℚ × ℚ × ℚ => (p.2.1, p.2.2.1, p.2.2.2)) h
    simpa [List.map_map, Function.comp, Bar.ohlc] using h'
  have hs : ∀ n, smaLast n bars₁ = smaLast n bars₂ := by
    intro n
    unfold smaLast smaCore
    rw [hclose]
  have ha : atrLast 14 bars₁ = atrLast 14 bars₂ := by
    unfold atrLast
    rw [hhlc]
  have hlast : bars₁.getLast?.map Bar.ohlc = bars₂.getLast?.map Bar.ohlc := by
    rw [← List.getLast?_map, ← List.getLast?_map, h]
  simp only [run]
  rw [if_neg (guard_false hlen), if_neg (guard_false (hlen2 ▸ hlen))]
  cases h₁ : bars₁.getLast? with
  | none =>
      cases h₂ : bars₂.getLast? with
      | none => rfl
      | some l₂ =>
          rw [h₁, h₂] at hlast
          simp at hlast
  | some l₁ =>
      cases h₂ : bars₂.getLast? with
      | none =>
          rw [h₁, h₂] at hlast
          simp at hlast
      | some l₂ =>
          rw [h₁, h₂] at hlast
          obtain ⟨ho, hh, hl, hc⟩ :
              l₁.openP = l₂.openP ∧ l₁.high = l₂.high ∧ l₁.low = l₂.low ∧
                l₁.close = l₂.close := by
            simpa [Bar.ohlc, Prod.ext_iff] using hlast
          rw [hs 10, hs 20, hs 50, ha]
          simp only [ho, hl, hc]

theorem run_volume_independent_witness :
    run (some (List.replicate 50 flatBar)) = run (some (List.replicate 50 (⟨99, 101, 98, 100, 7⟩ : Bar))) :=
  run_volume_independent (List.replicate 50 flatBar) (List.replicate 50 ⟨99, 101, 98, 100, 7⟩)
    (by simp)
    (by simp [flatBar, Bar.ohlc])

end Theorems

end QullamaggieLawsOfSwing
